import Mathlib

/-!
Shallow embedding of the `obsidian-secured-code-plugin` core (src/main.ts):
the trusted-execution gate that hashes embedded script fragments, checks the
digest against a refreshable trust store, and monkey-patches foreign entry
points (Dataview `executeJs`, Meta Bind `jsEngineRunCode` / `jsEngineRunFile`)
so every invocation passes through the check.

The SHA-256 digest (`calculateHash`, which delegates to the external `crypto`
library) is modelled as an oracle parameter `hash : String → String`; the
external execution engines are modelled as oracles `String → Except ε ρ`
(a call either returns a value or throws); vault file reads are modelled as
`String → Option String` (`none` for an absent or unreadable file).
-/

namespace SecuredCode

/-- Mirror of the `SecuredCodeSettings` interface (src/main.ts lines 5-11). -/
structure Settings where
  trustedHashesNotes : List String
  trustedHashes : List String
  allowUntrustedCode : Bool
  bypassDataviewJsSecurity : Bool
  bypassMetaBindButtonSecurity : Bool
  deriving Repr, DecidableEq

/-- The plugin fields the gate logic reads: the persisted settings and the
in-memory snapshot `allTrustedHashes` (src/main.ts lines 23-24). -/
structure PluginState where
  settings : Settings
  allTrustedHashes : List String
  deriving Repr, DecidableEq

/-- The allow/deny verdict computed in `securedExecuteJs` (src/main.ts line 82):
`allTrustedHashes.includes(hash) || settings.allowUntrustedCode ||
settings.bypassDataviewJsSecurity`. -/
def allowDataview (hash : String → String) (st : PluginState) (code : String) : Bool :=
  st.allTrustedHashes.contains (hash code) || st.settings.allowUntrustedCode
    || st.settings.bypassDataviewJsSecurity

/-- The allow/deny verdict computed in `securedJsEngineRunCode` (line 111) and
`securedJsEngineRunFile` (line 131): `allTrustedHashes.includes(hash) ||
settings.allowUntrustedCode || settings.bypassMetaBindButtonSecurity`. -/
def allowMetaBind (hash : String → String) (st : PluginState) (code : String) : Bool :=
  st.allTrustedHashes.contains (hash code) || st.settings.allowUntrustedCode
    || st.settings.bypassMetaBindButtonSecurity

/-- The value installed at a foreign entry point: either the plugin's guard
wrapper or the captured original function. -/
inductive EntryFn where
  | guard
  | original
  deriving Repr, DecidableEq

/-- Observable outcome of one guarded invocation: the value left installed at
the entry point when control leaves the wrapper (`entry`), the returned or
thrown result (`none` models the dataview deny branch, which returns
`undefined` without calling the engine), the list of code strings handed to
the original engine (`origArgs`), and the `renderSecurityError` invocations
as (digest, language-label) pairs (`reports`). -/
structure GuardOutcome (ρ ε : Type) where
  entry : EntryFn
  result : Option (Except ε ρ)
  origArgs : List String
  reports : List (String × String)

/-- Mirror of `securedExecuteJs` (src/main.ts lines 79-94). The original
engine is an oracle `original : String → Except ε ρ`; a `.error` result
models a thrown exception. The wrapper is entered with the guard installed.
In the allow branch the code assigns the original to the entry point, calls
it, and assigns the guard back only after the call returns normally; there is
no try/finally, so on a throw the reassignment line never runs and the entry
point stays `.original`. In the deny branch it warns and calls
`renderSecurityError` with the hash and the label "datavierjs" (sic). -/
def securedExecuteJs (hash : String → String) (st : PluginState)
    (original : String → Except ε ρ) (code : String) : GuardOutcome ρ ε :=
  if allowDataview hash st code then
    match original code with
    | Except.error e =>
        { entry := EntryFn.original, result := some (Except.error e),
          origArgs := [code], reports := [] }
    | Except.ok r =>
        { entry := EntryFn.guard, result := some (Except.ok r),
          origArgs := [code], reports := [] }
  else
    { entry := EntryFn.guard, result := none, origArgs := [],
      reports := [(hash code, "datavierjs")] }

/-- The replacement script substituted for denied meta-bind code
(src/main.ts lines 114 and 134). -/
def blockedMessage (h : String) : String :=
  "console.log(\"SecuredCode: Blocked untrusted meta-bind execution. Hash: "
    ++ h ++ "\")"

/-- Mirror of `securedJsEngineRunCode` (src/main.ts lines 108-120). On deny
the code string is replaced by `blockedMessage` and the original engine is
still invoked, with the replacement. The swap-call-restore around the awaited
call has no try/finally, so a rejected call leaves the original installed. -/
def securedJsEngineRunCode (hash : String → String) (st : PluginState)
    (original : String → Except ε ρ) (code : String) : GuardOutcome ρ ε :=
  let code2 := if allowMetaBind hash st code then code
    else blockedMessage (hash code)
  match original code2 with
  | Except.error e =>
      { entry := EntryFn.original, result := some (Except.error e),
        origArgs := [code2], reports := [] }
  | Except.ok r =>
      { entry := EntryFn.guard, result := some (Except.ok r),
        origArgs := [code2], reports := [] }

/-- Mirror of `securedJsEngineRunFile` (src/main.ts lines 122-140). The vault
is the oracle `readFile`; `none` models a missing file, in which case the
function logs and returns without touching engine or entry point. Otherwise
the file's content is checked and run through `jsEngineRunCode`'s original,
exactly as in `securedJsEngineRunCode`. -/
def securedJsEngineRunFile (hash : String → String) (st : PluginState)
    (readFile : String → Option String) (original : String → Except ε ρ)
    (filePath : String) : GuardOutcome ρ ε :=
  match readFile filePath with
  | none =>
      { entry := EntryFn.guard, result := none, origArgs := [], reports := [] }
  | some code => securedJsEngineRunCode hash st original code

/-- A concrete configuration with every override flag cleared and nothing
trusted: every verdict on it is Deny. Used to evaluate the wrappers on
concrete inputs. -/
def denyAllState : PluginState :=
  { settings :=
      { trustedHashesNotes := [], trustedHashes := [],
        allowUntrustedCode := false, bypassDataviewJsSecurity := false,
        bypassMetaBindButtonSecurity := false },
    allTrustedHashes := [] }

/-- A concrete configuration with the global override (`allowUntrustedCode`)
set: every verdict on it is Allow. -/
def allowAllState : PluginState :=
  { settings :=
      { trustedHashesNotes := [], trustedHashes := [],
        allowUntrustedCode := true, bypassDataviewJsSecurity := false,
        bypassMetaBindButtonSecurity := false },
    allTrustedHashes := [] }

/-- The three live entry-point slots the plugin patches: `dv.executeJs`,
`mb.internal.jsEngineRunCode` and `mb.internal.jsEngineRunFile`. The slot
values are abstracted over a type `α` (function references in the source). -/
structure EntryPoints (α : Type) where
  executeJs : α
  jsEngineRunCode : α
  jsEngineRunFile : α
  deriving Repr, DecidableEq

/-- The patching state: the live entry points plus the plugin's captured
originals (`originalExecuteJs`, `originalJsEngineRunCode`, and the
undeclared dynamic field `originalJsEngineRunFile`), each `none` before the
corresponding patch is installed (src/main.ts lines 26-28, 102). -/
structure PatchState (α : Type) where
  entries : EntryPoints α
  originalExecuteJs : Option α
  originalJsEngineRunCode : Option α
  originalJsEngineRunFile : Option α
  deriving Repr, DecidableEq

/-- Mirror of `monkeyPatchExecuteJs` (src/main.ts lines 73-77): capture the
current live value into `originalExecuteJs`, then write the guard into the
entry point. There is no check that a patch is already installed. -/
def monkeyPatchExecuteJs (guard : α) (s : PatchState α) : PatchState α :=
  { s with
    originalExecuteJs := some s.entries.executeJs,
    entries := { s.entries with executeJs := guard } }

/-- Mirror of `monkeyPatchJsEngine` (src/main.ts lines 96-106): capture and
replace both `jsEngineRunCode` and `jsEngineRunFile`, unconditionally. -/
def monkeyPatchJsEngine (guardCode guardFile : α) (s : PatchState α) : PatchState α :=
  { s with
    originalJsEngineRunCode := some s.entries.jsEngineRunCode,
    originalJsEngineRunFile := some s.entries.jsEngineRunFile,
    entries := { s.entries with
      jsEngineRunCode := guardCode, jsEngineRunFile := guardFile } }

/-- Mirror of `onunload` (src/main.ts lines 142-153): if `originalExecuteJs`
was captured, write it back to `dv.executeJs`; if `originalJsEngineRunCode`
was captured, write it back to `mb.internal.jsEngineRunCode`. No statement
restores `jsEngineRunFile`. -/
def onunload (s : PatchState α) : PatchState α :=
  let s1 :=
    match s.originalExecuteJs with
    | some o => { s with entries := { s.entries with executeJs := o } }
    | none => s
  match s1.originalJsEngineRunCode with
  | some o => { s1 with entries := { s1.entries with jsEngineRunCode := o } }
  | none => s1

/-- A concrete pre-patch state over `Nat`-coded function references: the
three entry points hold their original values 0, 1, 2 and nothing has been
captured yet. Guards are coded 10, 11, 12. -/
def patchState0 : PatchState Nat :=
  { entries := { executeJs := 0, jsEngineRunCode := 1, jsEngineRunFile := 2 },
    originalExecuteJs := none,
    originalJsEngineRunCode := none,
    originalJsEngineRunFile := none }

/-- State for the re-entrancy analysis of the swap-call-restore protocol
(src/main.ts lines 84-89, 115-119): which function is installed at the entry
point, how many times the guard's decision logic (hash-and-check, line 82)
has run, how many times the original engine has run, and the recursion
budget of the recursive-original test double (how many further times the
original will call back into the live entry point). -/
structure ReentrySt where
  installed : EntryFn
  decisions : Nat
  origCalls : Nat
  pending : Nat
  deriving Repr, DecidableEq

/-- One call to the live entry point, fuel-indexed for termination. When the
guard is installed it evaluates the decision (counted), and on Allow swaps
the original in, calls the entry point again (which now dispatches to the
original, exactly as `that.executeJs = self.originalExecuteJs; ...
that.executeJs(...)` does), and reinstalls the guard afterwards. When the
original is installed, the recursive test double runs: it decrements its
budget and calls back into the live entry point until the budget is 0. -/
def invokeEntry (hash : String → String) (ps : PluginState) (code : String) :
    Nat → ReentrySt → Option ReentrySt
  | 0, _ => none
  | fuel + 1, st =>
    match st.installed with
    | EntryFn.guard =>
      let st1 := { st with decisions := st.decisions + 1 }
      if allowDataview hash ps code then
        match invokeEntry hash ps code fuel { st1 with installed := EntryFn.original } with
        | none => none
        | some st2 => some { st2 with installed := EntryFn.guard }
      else some st1
    | EntryFn.original =>
      let st1 := { st with origCalls := st.origCalls + 1 }
      match st1.pending with
      | 0 => some st1
      | n + 1 => invokeEntry hash ps code fuel { st1 with pending := n }

/-- Splitting a character list at newline characters, accumulator-based.
Mirrors the JS built-in `content.split('\n')`: the separator is consumed and
empty segments are kept (so a trailing newline yields a final empty line and
the empty string yields one empty line). -/
def splitNlAux (cur : List Char) : List Char → List (List Char)
  | [] => [cur.reverse]
  | c :: cs =>
    if c = '\n' then cur.reverse :: splitNlAux [] cs
    else splitNlAux (c :: cur) cs

/-- Model of the JS built-in `String.prototype.split` applied with the
separator `'\n'`, as called in src/main.ts line 196. -/
def splitNl (s : String) : List String :=
  (splitNlAux [] s.data).map String.mk

/-- Model of the JS built-in `line.startsWith('#')` (src/main.ts line 196):
the line's first character is the comment marker. -/
def startsWithHash (s : String) : Bool :=
  match s.data with
  | [] => false
  | c :: _ => c = '#'

/-- Model of the JS built-in `String.prototype.trim` (src/main.ts line 198):
drop whitespace from both ends. -/
def jsTrim (s : String) : String :=
  String.mk
    (((s.data.dropWhile Char.isWhitespace).reverse.dropWhile
      Char.isWhitespace).reverse)

/-- One line of a trusted-hashes note, as processed by the inner loop of
`loadTrustedHashes` (src/main.ts lines 197-202): trim the line, and append
it to the accumulated list if it is non-empty (JS truthiness of a string)
and not already present. -/
def addLine (acc : List String) (line : String) : List String :=
  if jsTrim line ≠ "" && !acc.contains (jsTrim line) then
    acc ++ [jsTrim line]
  else acc

/-- The candidate lines of a note body (src/main.ts line 196): split on
newline and drop lines starting with the comment marker. -/
def noteLines (content : String) : List String :=
  (splitNl content).filter (fun l => !(startsWithHash l))

/-- Processing of one configured note path (src/main.ts lines 191-207): the
vault oracle `readNote` yields the note's content, or `none` when the file
is absent or the read throws; in that case the loop body contributes nothing
(the catch logs and continues). -/
def addNote (readNote : String → Option String) (acc : List String)
    (notePath : String) : List String :=
  match readNote notePath with
  | none => acc
  | some content => (noteLines content).foldl addLine acc

/-- Mirror of `loadTrustedHashes` (src/main.ts lines 187-213): start from a
copy of the manual `settings.trustedHashes`, fold every configured note
through `addNote`, and store the result in the in-memory snapshot
`allTrustedHashes`. The persisted settings are not written. -/
def loadTrustedHashes (readNote : String → Option String)
    (st : PluginState) : PluginState :=
  { st with
    allTrustedHashes :=
      st.settings.trustedHashesNotes.foldl (addNote readNote)
        st.settings.trustedHashes }

/-- The wait before retry attempt `trynumber + 1`, from the source expression
`100*2^trynumber` (src/main.ts lines 56 and 69). In TypeScript `^` is
bitwise XOR and binds looser than `*`, so the computed wait in milliseconds
is `(100*2) XOR trynumber`, not an exponential. -/
def retryDelay (trynumber : Nat) : Nat :=
  Nat.xor (100 * 2) trynumber

/-- Trace of the integration-resolution retry loop `getDataviewAndPatch` /
`getMetaBindAndPatch` (src/main.ts lines 47-71). `available n` says whether
the integration has resolved when attempt `n` runs. Returns whether patching
succeeded together with the list of waits (ms) performed after failed
attempts. The source recurses with `trynumber` counting up from 1 and throws
once `trynumber >= 10`; `remaining` here counts the retries still permitted
after the current attempt, i.e. `10 - trynumber`, so the source's entry call
corresponds to `getPatchTrace available 1 9`. -/
def getPatchTrace (available : Nat → Bool) :
    Nat → Nat → Bool × List Nat
  | trynumber, remaining =>
    if available trynumber then (true, [])
    else
      match remaining with
      | 0 => (false, [])
      | r + 1 =>
        let rest := getPatchTrace available (trynumber + 1) r
        (rest.1, retryDelay trynumber :: rest.2)

end SecuredCode

namespace SecuredCode

/-- C1: the verdict of each guarded invocation is Allow exactly when the
content's digest is in the trust snapshot, or the global override
(`allowUntrustedCode`) is set, or the per-integration override
(`bypassDataviewJsSecurity` resp. `bypassMetaBindButtonSecurity`) is set; it
is Deny otherwise, and it is a function of exactly these three booleans, for
every content string, trust set and flag combination. -/
theorem decision_policy_truth_table (hash : String → String) (st : PluginState) (c : String) :
    (allowDataview hash st c = true ↔
      hash c ∈ st.allTrustedHashes ∨ st.settings.allowUntrustedCode = true ∨
        st.settings.bypassDataviewJsSecurity = true) ∧
    (allowMetaBind hash st c = true ↔
      hash c ∈ st.allTrustedHashes ∨ st.settings.allowUntrustedCode = true ∨
        st.settings.bypassMetaBindButtonSecurity = true) ∧
    (allowDataview hash st c =
      (decide (hash c ∈ st.allTrustedHashes) || st.settings.allowUntrustedCode ||
        st.settings.bypassDataviewJsSecurity)) ∧
    (allowMetaBind hash st c =
      (decide (hash c ∈ st.allTrustedHashes) || st.settings.allowUntrustedCode ||
        st.settings.bypassMetaBindButtonSecurity)) := by
  refine ⟨?_, ?_, ?_, ?_⟩
  · simp [allowDataview, or_assoc]
  · simp [allowMetaBind, or_assoc]
  · simp [allowDataview]
  · simp [allowMetaBind]

/-- C2: on a Deny verdict the untrusted source text is never handed to the
underlying engine: the dataview wrapper does not call the original at all,
and the meta-bind wrappers call it only with the substituted diagnostic
script, which differs from the untrusted content whenever the content is not
a fixed point of the diagnostic template (true of any real SHA-256 digest). -/
theorem denied_content_never_executed {ε ρ : Type} (hash : String → String)
    (st : PluginState) (original : String → Except ε ρ)
    (readFile : String → Option String) (c fp : String) :
    (allowDataview hash st c = false →
      (securedExecuteJs hash st original c).origArgs = []) ∧
    (allowMetaBind hash st c = false → blockedMessage (hash c) ≠ c →
      c ∉ (securedJsEngineRunCode hash st original c).origArgs) ∧
    (readFile fp = some c → allowMetaBind hash st c = false →
      blockedMessage (hash c) ≠ c →
      c ∉ (securedJsEngineRunFile hash st readFile original fp).origArgs) := by
  have hrun : allowMetaBind hash st c = false → blockedMessage (hash c) ≠ c →
      c ∉ (securedJsEngineRunCode hash st original c).origArgs := by
    intro hdeny hfix
    unfold securedJsEngineRunCode
    simp only [hdeny, if_false, Bool.false_eq_true]
    cases original (blockedMessage (hash c)) with
    | error e => simpa using fun h => hfix h.symm
    | ok r => simpa using fun h => hfix h.symm
  refine ⟨?_, hrun, ?_⟩
  · intro hdeny
    unfold securedExecuteJs
    simp [hdeny]
  · intro hread hdeny hfix
    unfold securedJsEngineRunFile
    rw [hread]
    exact hrun hdeny hfix

/-- C2 witness: with a constant digest oracle, an all-deny configuration and
a successful engine, the blocked content "evil" is not among the arguments
handed to the engine by either meta-bind wrapper, and the dataview wrapper
hands the engine nothing. -/
theorem denied_content_never_executed_witness :
    (securedExecuteJs (fun _ => "h") denyAllState
      (fun _ => (Except.ok 0 : Except Unit Nat)) "evil").origArgs = [] ∧
    "evil" ∉ (securedJsEngineRunCode (fun _ => "h") denyAllState
      (fun _ => (Except.ok 0 : Except Unit Nat)) "evil").origArgs ∧
    "evil" ∉ (securedJsEngineRunFile (fun _ => "h") denyAllState
      (fun _ => some "evil") (fun _ => (Except.ok 0 : Except Unit Nat))
      "note.js").origArgs := by
  have h := denied_content_never_executed (fun _ => "h") denyAllState
    (fun _ => (Except.ok 0 : Except Unit Nat)) (fun _ => some "evil")
    "evil" "note.js"
  exact ⟨h.1 rfl, h.2.1 rfl (by decide), h.2.2 rfl rfl (by decide)⟩

/-- C3: the swap-call-restore sequence is not exception-safe. With the
verdict Allow and an original that throws, both `securedExecuteJs` and
`securedJsEngineRunCode` propagate the failure with the original — not the
guard — left installed at the entry point: the reinstallation statement
after the call never runs, contradicting the required scoped
acquisition/release discipline. -/
theorem guard_not_reinstalled_after_throw :
    (securedExecuteJs (fun _ => "h") allowAllState
      (fun _ => (Except.error 0 : Except Nat Nat)) "code").entry
        = EntryFn.original ∧
    (securedJsEngineRunCode (fun _ => "h") allowAllState
      (fun _ => (Except.error 0 : Except Nat Nat)) "code").entry
        = EntryFn.original := by
  constructor <;> rfl

/-- C7 counterexample: a denied meta-bind invocation (verdict Deny under an
all-deny configuration) produces zero invocations of the reporting/renderer
collaborator, not exactly one. -/
theorem metabind_denial_without_renderer_report :
    allowMetaBind (fun _ => "h") denyAllState "evil" = false ∧
    (securedJsEngineRunCode (fun _ => "h") denyAllState
      (fun _ => (Except.ok 0 : Except Unit Nat)) "evil").reports.length
        = 0 := by
  constructor <;> rfl

/-- C7 amended: a denied dataview invocation invokes the renderer exactly
once, with the blocked content's digest and the label "datavierjs" (sic); a
denied meta-bind invocation invokes the renderer zero times and instead
hands the engine exactly one script, the console diagnostic embedding the
digest. -/
theorem denial_reporting_per_integration {ε ρ : Type} (hash : String → String)
    (st : PluginState) (original : String → Except ε ρ) (c : String) :
    (allowDataview hash st c = false →
      (securedExecuteJs hash st original c).reports = [(hash c, "datavierjs")]) ∧
    (allowMetaBind hash st c = false →
      (securedJsEngineRunCode hash st original c).reports = [] ∧
      (securedJsEngineRunCode hash st original c).origArgs
        = [blockedMessage (hash c)]) := by
  constructor
  · intro hdeny
    unfold securedExecuteJs
    simp [hdeny]
  · intro hdeny
    unfold securedJsEngineRunCode
    simp only [hdeny, if_false, Bool.false_eq_true]
    cases original (blockedMessage (hash c)) <;> simp

/-- C7 amended witness: under an all-deny configuration, the dataview
wrapper reports the digest of "evil" once with its label, and the meta-bind
wrapper reports nothing and executes only the diagnostic script. -/
theorem denial_reporting_per_integration_witness :
    (securedExecuteJs (fun _ => "h") denyAllState
      (fun _ => (Except.ok 0 : Except Unit Nat)) "evil").reports
        = [("h", "datavierjs")] ∧
    (securedJsEngineRunCode (fun _ => "h") denyAllState
      (fun _ => (Except.ok 0 : Except Unit Nat)) "evil").reports = [] := by
  have h := denial_reporting_per_integration (fun _ => "h") denyAllState
    (fun _ => (Except.ok 0 : Except Unit Nat)) "evil"
  exact ⟨h.1 rfl, (h.2 rfl).1⟩

/-- C4: after installing all three patches and running `onunload`,
`executeJs` and `jsEngineRunCode` are back at their install-time originals
(0 and 1) but `jsEngineRunFile` still holds the guard 12 instead of its
original 2: no statement of `onunload` restores it. -/
theorem unload_leaves_runFile_patched :
    (onunload (monkeyPatchJsEngine 11 12
        (monkeyPatchExecuteJs 10 patchState0))).entries.executeJs = 0 ∧
    (onunload (monkeyPatchJsEngine 11 12
        (monkeyPatchExecuteJs 10 patchState0))).entries.jsEngineRunCode = 1 ∧
    (onunload (monkeyPatchJsEngine 11 12
        (monkeyPatchExecuteJs 10 patchState0))).entries.jsEngineRunFile = 12 ∧
    patchState0.entries.jsEngineRunFile = 2 := by
  refine ⟨rfl, rfl, rfl, rfl⟩

/-- C6 counterexample: a second `monkeyPatchExecuteJs` on the same pair does
not fail and does not leave the stored captured original unchanged: it
overwrites it with the live value, which is the guard (10), losing the true
original (0). -/
theorem second_install_overwrites_captured_original :
    (monkeyPatchExecuteJs 10 patchState0).originalExecuteJs = some 0 ∧
    (monkeyPatchExecuteJs 10
      (monkeyPatchExecuteJs 10 patchState0)).originalExecuteJs = some 10 ∧
    (monkeyPatchExecuteJs 10
        (monkeyPatchExecuteJs 10 patchState0)).originalExecuteJs ≠
      (monkeyPatchExecuteJs 10 patchState0).originalExecuteJs := by
  refine ⟨rfl, rfl, by decide⟩

/-- C6 amended: install is unconditional — a second install on the same
(target, entry point) pair without an intervening uninstall silently
re-captures the live value, so the stored "original" becomes the guard
itself and the true original is lost, while the entry point keeps holding
the guard; no AlreadyInstalled failure exists in the code. -/
theorem second_install_captures_guard {α : Type} (g gc gf : α)
    (s : PatchState α) :
    (monkeyPatchExecuteJs g (monkeyPatchExecuteJs g s)).originalExecuteJs
        = some g ∧
    (monkeyPatchExecuteJs g (monkeyPatchExecuteJs g s)).entries.executeJs
        = g ∧
    (monkeyPatchJsEngine gc gf
      (monkeyPatchJsEngine gc gf s)).originalJsEngineRunCode = some gc ∧
    (monkeyPatchJsEngine gc gf
      (monkeyPatchJsEngine gc gf s)).originalJsEngineRunFile = some gf :=
  ⟨rfl, rfl, rfl, rfl⟩

/-- Helper for the re-entrancy analysis: while the original is installed at
the entry point, the recursive test double performs its whole chain of
`k + 1` engine runs without touching the decision counter or the installed
slot, and ends with its budget exhausted. -/
theorem invokeEntry_original_chain (hash : String → String) (ps : PluginState)
    (code : String) :
    ∀ (k fuel d oc : Nat), k < fuel →
      invokeEntry hash ps code fuel
          { installed := EntryFn.original, decisions := d, origCalls := oc,
            pending := k } =
        some { installed := EntryFn.original, decisions := d,
               origCalls := oc + (k + 1), pending := 0 } := by
  intro k
  induction k with
  | zero =>
    intro fuel d oc hlt
    cases fuel with
    | zero => omega
    | succ f => simp [invokeEntry]
  | succ n ih =>
    intro fuel d oc hlt
    cases fuel with
    | zero => omega
    | succ f =>
      have hrec := ih f d (oc + 1) (by omega)
      simp [invokeEntry, hrec]
      omega

/-- C5: one external call through the guarded entry point, with a
recursive-original test double that calls back into the entry point `k`
times, evaluates the guard's decision logic exactly once, runs the original
`k + 1` times, terminates, and leaves the guard reinstalled. -/
theorem reentrant_delegation_single_decision (hash : String → String)
    (ps : PluginState) (code : String) (k fuel : Nat)
    (hallow : allowDataview hash ps code = true) (hfuel : k + 1 < fuel) :
    invokeEntry hash ps code fuel
        { installed := EntryFn.guard, decisions := 0, origCalls := 0,
          pending := k } =
      some { installed := EntryFn.guard, decisions := 1, origCalls := k + 1,
             pending := 0 } := by
  cases fuel with
  | zero => omega
  | succ f =>
    have hchain := invokeEntry_original_chain hash ps code k f 1 0 (by omega)
    simp [invokeEntry, hallow, hchain]

/-- C5 witness: with the global override set, an external call whose
recursive-original double re-enters the entry point twice yields exactly one
decision evaluation, three original runs, and the guard reinstalled. -/
theorem reentrant_delegation_single_decision_witness :
    invokeEntry (fun _ => "h") allowAllState "c" 5
        { installed := EntryFn.guard, decisions := 0, origCalls := 0,
          pending := 2 } =
      some { installed := EntryFn.guard, decisions := 1, origCalls := 3,
             pending := 0 } :=
  reentrant_delegation_single_decision (fun _ => "h") allowAllState "c" 2 5
    rfl (by decide)

/-- Entries already collected are never removed by processing another line. -/
theorem mem_addLine_of_mem (acc : List String) (line a : String)
    (ha : a ∈ acc) : a ∈ addLine acc line := by
  unfold addLine
  split
  · exact List.mem_append_left _ ha
  · exact ha

/-- A candidate line with non-empty trimmed content is present after the
line is processed. -/
theorem trim_mem_addLine (acc : List String) (line : String)
    (hne : jsTrim line ≠ "") : jsTrim line ∈ addLine acc line := by
  unfold addLine
  split
  · exact List.mem_append_right _ (List.mem_singleton.mpr rfl)
  · rename_i hcond
    simp [hne] at hcond
    exact hcond

/-- Entries already collected survive a whole note body. -/
theorem mem_foldl_addLine_of_mem (lines : List String) :
    ∀ (acc : List String) (a : String), a ∈ acc →
      a ∈ lines.foldl addLine acc := by
  induction lines with
  | nil => intro acc a ha; exact ha
  | cons hd tl ih =>
    intro acc a ha
    rw [List.foldl_cons]
    exact ih _ _ (mem_addLine_of_mem _ _ _ ha)

/-- Every line of a note body with non-empty trimmed content is collected by
the line fold. -/
theorem trim_mem_foldl_addLine (lines : List String) :
    ∀ (acc : List String) (line : String), line ∈ lines → jsTrim line ≠ "" →
      jsTrim line ∈ lines.foldl addLine acc := by
  induction lines with
  | nil => intro acc line hl _; cases hl
  | cons hd tl ih =>
    intro acc line hl hne
    rw [List.foldl_cons]
    rcases List.mem_cons.mp hl with heq | htl
    · subst heq
      exact mem_foldl_addLine_of_mem _ _ _ (trim_mem_addLine _ _ hne)
    · exact ih _ _ htl hne

/-- Entries already collected survive processing one more note source. -/
theorem mem_addNote_of_mem (readNote : String → Option String)
    (acc : List String) (notePath a : String) (ha : a ∈ acc) :
    a ∈ addNote readNote acc notePath := by
  unfold addNote
  cases readNote notePath with
  | none => exact ha
  | some content => exact mem_foldl_addLine_of_mem _ _ _ ha

/-- Entries already collected survive the whole fold over note sources. -/
theorem mem_foldl_addNote_of_mem (readNote : String → Option String)
    (notes : List String) :
    ∀ (acc : List String) (a : String), a ∈ acc →
      a ∈ notes.foldl (addNote readNote) acc := by
  induction notes with
  | nil => intro acc a ha; exact ha
  | cons hd tl ih =>
    intro acc a ha
    rw [List.foldl_cons]
    exact ih _ _ (mem_addNote_of_mem _ _ _ _ ha)

/-- Every entry parsed from a readable note source ends up in the fold over
the note sources. -/
theorem note_entry_mem_foldl_addNote (readNote : String → Option String)
    (notes : List String) :
    ∀ (acc : List String) (p content line : String), p ∈ notes →
      readNote p = some content → line ∈ noteLines content →
      jsTrim line ≠ "" →
      jsTrim line ∈ notes.foldl (addNote readNote) acc := by
  induction notes with
  | nil => intro acc p content line hp _ _ _; cases hp
  | cons hd tl ih =>
    intro acc p content line hp hr hl hne
    rw [List.foldl_cons]
    rcases List.mem_cons.mp hp with heq | htl
    · subst heq
      apply mem_foldl_addNote_of_mem
      unfold addNote
      rw [hr]
      exact trim_mem_foldl_addLine _ _ _ hl hne
    · exact ih _ _ _ _ htl hr hl hne

/-- A note source that cannot be read contributes nothing: the fold over all
note sources equals the fold over only the readable ones. -/
theorem foldl_addNote_filter_readable (readNote : String → Option String)
    (notes : List String) :
    ∀ acc : List String, notes.foldl (addNote readNote) acc =
      (notes.filter (fun p => (readNote p).isSome)).foldl
        (addNote readNote) acc := by
  induction notes with
  | nil => intro acc; rfl
  | cons hd tl ih =>
    intro acc
    cases hread : readNote hd with
    | none =>
      have hskip : addNote readNote acc hd = acc := by
        unfold addNote
        rw [hread]
      simp [List.filter_cons, List.foldl_cons, hread, hskip, ih]
    | some content =>
      simp [List.filter_cons, List.foldl_cons, hread, ih]

/-- C8: a refresh is total (errors are absorbed source-locally: `readNote`
returning `none` models an absent file or a throwing read), the resulting
snapshot contains every manual entry and every entry parsed from every
readable note source, and unreadable sources contribute exactly nothing:
the snapshot equals the one computed from the readable sources alone. -/
theorem refresh_partial_failure_isolation (readNote : String → Option String)
    (st : PluginState) :
    (∀ a ∈ st.settings.trustedHashes,
      a ∈ (loadTrustedHashes readNote st).allTrustedHashes) ∧
    (∀ p ∈ st.settings.trustedHashesNotes, ∀ content, readNote p = some content →
      ∀ line ∈ noteLines content, jsTrim line ≠ "" →
        jsTrim line ∈ (loadTrustedHashes readNote st).allTrustedHashes) ∧
    (loadTrustedHashes readNote st).allTrustedHashes =
      (st.settings.trustedHashesNotes.filter
          (fun p => (readNote p).isSome)).foldl
        (addNote readNote) st.settings.trustedHashes := by
  refine ⟨?_, ?_, ?_⟩
  · intro a ha
    exact mem_foldl_addNote_of_mem _ _ _ _ ha
  · intro p hp content hr line hl hne
    exact note_entry_mem_foldl_addNote _ _ _ _ _ _ hp hr hl hne
  · exact foldl_addNote_filter_readable _ _ _

/-- C8 witness: with the note "good" readable (one comment line, one blank
line, the hash "AB" twice) and the note "missing" unreadable, the refreshed
snapshot contains the manual entry "MAN" and the parsed entry "AB". -/
theorem refresh_partial_failure_isolation_witness :
    "MAN" ∈ (loadTrustedHashes
      (fun p => if p = "good" then some "# c\nAB\n\nAB" else none)
      { settings :=
          { trustedHashesNotes := ["missing", "good"], trustedHashes := ["MAN"],
            allowUntrustedCode := false, bypassDataviewJsSecurity := false,
            bypassMetaBindButtonSecurity := false },
        allTrustedHashes := [] }).allTrustedHashes ∧
    "AB" ∈ (loadTrustedHashes
      (fun p => if p = "good" then some "# c\nAB\n\nAB" else none)
      { settings :=
          { trustedHashesNotes := ["missing", "good"], trustedHashes := ["MAN"],
            allowUntrustedCode := false, bypassDataviewJsSecurity := false,
            bypassMetaBindButtonSecurity := false },
        allTrustedHashes := [] }).allTrustedHashes := by
  have h := refresh_partial_failure_isolation
    (fun p => if p = "good" then some "# c\nAB\n\nAB" else none)
    { settings :=
        { trustedHashesNotes := ["missing", "good"], trustedHashes := ["MAN"],
          allowUntrustedCode := false, bypassDataviewJsSecurity := false,
          bypassMetaBindButtonSecurity := false },
      allTrustedHashes := [] }
  refine ⟨h.1 "MAN" (by decide), ?_⟩
  have hmem := h.2.1 "good" (by decide) "# c\nAB\n\nAB" (by decide)
    "AB" (by decide) (by decide)
  exact (by decide : jsTrim "AB" = "AB") ▸ hmem

/-- C9: the retry waits the source computes. `100*2^trynumber` in TypeScript
is `(100*2) XOR trynumber` milliseconds, so the wait sequence over the whole
retry run (attempts 1 through 9 wait; attempt 10 throws) is 201, 202, 203,
204, 205, 206, 207, 192, 193: it drops between attempts 7 and 8, so it is
not monotonically non-decreasing. The attempt count is still bounded: with
an integration that never resolves, exactly 9 waits (10 attempts) happen and
the run fails. -/
theorem retry_backoff_not_monotone :
    retryDelay 7 = 207 ∧ retryDelay 8 = 192 ∧ retryDelay 8 < retryDelay 7 ∧
    getPatchTrace (fun _ => false) 1 9 =
      (false, [201, 202, 203, 204, 205, 206, 207, 192, 193]) ∧
    (getPatchTrace (fun _ => false) 1 9).2.length + 1 = 10 := by
  refine ⟨rfl, rfl, by decide, by decide, by decide⟩

/-- C10: a refresh leaves the persisted configuration byte-identical — the
whole `settings` record, hence `trustedHashes`, `trustedHashesNotes` and all
three flags — and writes only the in-memory snapshot, which it builds from a
copy of the manual list (with no note sources configured the snapshot is
exactly the manual list). -/
theorem refresh_preserves_settings (readNote : String → Option String)
    (st : PluginState) :
    (loadTrustedHashes readNote st).settings = st.settings ∧
    (st.settings.trustedHashesNotes = [] →
      (loadTrustedHashes readNote st).allTrustedHashes
        = st.settings.trustedHashes) := by
  constructor
  · rfl
  · intro h
    simp [loadTrustedHashes, h]

/-- C10 witness: refreshing the all-deny configuration (no note sources)
leaves its settings untouched and yields the (empty) manual list as the
snapshot. -/
theorem refresh_preserves_settings_witness :
    (loadTrustedHashes (fun _ => none) denyAllState).settings
        = denyAllState.settings ∧
    (loadTrustedHashes (fun _ => none) denyAllState).allTrustedHashes = [] :=
  ⟨(refresh_preserves_settings (fun _ => none) denyAllState).1,
   (refresh_preserves_settings (fun _ => none) denyAllState).2 rfl⟩

end SecuredCode
